import Mathlib

/-!
Verification of the orchestration in `src/adeleg/src/main.rs` (the `main`
function of the adeleg audit tool).

The modules `utils`, `schema` and `delegations`, and the external
collaborators (`winldap`, `clap`, `serde_json`), are not part of the audited
source file; `main` treats their values opaquely.  They are therefore
modelled as an environment `Env` of abstract results: `Delegation`, `Sid`,
`Schema` and `Sd` are opaque tokens, and `is_instance_of` is an arbitrary
boolean predicate supplied by the environment, exactly as `main` consumes it.

The run of `main` is embedded as the pure function `runMain`, which produces
the ordered trace of observable events (collaborator calls, standard-output
prints, standard-error messages) together with the process outcome.
-/

/-- A delegation record, opaque to `main.rs` (its fields live in the
`delegations` module). -/
structure Delegation where
  val : Nat
deriving DecidableEq, Repr

/-- Forest SID, opaque to `main.rs`. -/
abbrev Sid := Nat

/-- AdminSDHolder security descriptor, opaque to `main.rs`. -/
abbrev Sd := Nat

/-- Schema snapshot, opaque to `main.rs`. -/
abbrev Schema := Nat

/-- The `LdapCredentials` triple built at `main.rs` lines 99-110. -/
structure LdapCredentials where
  domain : String
  username : String
  password : String
deriving DecidableEq, Repr

/-- The command-line arguments as supplied by the operator, before the
argument parser validates them.  An empty `deleg_file` list means the
positional FILE argument was not supplied at all; `port = none` means the
`--port` option was not supplied (the parser then applies the default). -/
structure RawArgs where
  server : Option String
  port : Option String
  domain : Option String
  username : Option String
  password : Option String
  deleg_file : List String
deriving DecidableEq, Repr

/-- Structured standard-error messages, one constructor per `eprintln!`
call site in `main.rs`, carrying the formatted-in values. -/
inductive ErrMsg where
  | unableToOpenFile (path : String) (e : String)
  | unableToParseFile (path : String) (e : String)
  | unableToParsePort (port : String)
  | unableToConnect (server : String) (port : Nat) (e : String)
  | unableToFetchForestSid (e : String)
  | unableToFetchAdminSdHolder (e : String)
  | unableToFetchSchema (e : String)
  | errorFetchingNamingContext (nc : String) (e : String)
  | errorClosingConnection (server : String) (port : Nat) (e : String)
deriving DecidableEq, Repr

/-- Observable events of a run, in order: calls into collaborators,
standard-output prints, standard-error messages. -/
inductive Event where
  | calledOpen (path : String)
  | calledParse (path : String)
  | calledConnect (server : Option String) (port : Nat)
      (creds : Option LdapCredentials)
  | calledForestSid
  | calledAdminSdHolder
  | calledSchemaQuery
  | calledSchemaDelegations
  | stdoutFetchingNamingContext (nc : String)
  | calledExplicitDelegations (nc : String)
  | calledDestroy
  | printedDelegation (d : Delegation)
  | stderr (m : ErrMsg)
deriving DecidableEq, Repr

/-- Process outcome: normal or `std::process::exit` termination with a
code, or a Rust panic (abnormal termination). -/
inductive Outcome where
  | exited (code : Nat)
  | panicked (msg : String)
deriving DecidableEq, Repr

/-- The environment of a run: the results every external call would
return.  Fixing an `Env` fixes the directory snapshot and the file
system, which makes `runMain` a pure function of it. -/
structure Env where
  openFile : String → Except String Unit
  parseFile : String → Except String (List Delegation)
  connect : Option String → Nat → Option LdapCredentials → Except String Unit
  get_forest_sid : Except String Sid
  get_adminsdholder_sd : Except String Sd
  schema_query : Except String Schema
  get_schema_delegations : Schema → Sid → List Delegation
  naming_contexts : List String
  get_explicit_delegations : String → Sid → Schema → Sd →
      Except String (List Delegation)
  destroy : Except String Unit
  is_instance_of : Delegation → Delegation → Bool

/-- The default `--port` value, `LDAP_PORT` (389), formatted at
`main.rs` line 15. -/
def default_port : String := "389"

/-- Modelled from the spec: the argument parser (`clap`) is an external
collaborator; §6 specifies "an optional domain+username+password credential
triple (all three or none)", enforced in `main.rs` lines 33-56 by
`requires_all` constraints on each of the three options.  `get_matches`
succeeds iff the triple is complete or absent, and applies the default
port value; on a constraint violation it terminates the process with a
usage error (non-zero exit code 2) before any other activity. -/
def clapGetMatches (raw : RawArgs) : Option RawArgs :=
  match raw.domain, raw.username, raw.password with
  | some _, some _, some _ =>
      some { raw with port := some (raw.port.getD default_port) }
  | none, none, none =>
      some { raw with port := some (raw.port.getD default_port) }
  | _, _, _ => none

/-- `main.rs` lines 99-110: the credential triple passed to
`LdapConnection::new` is `Some` exactly when all of domain, username and
password were supplied. -/
def credsOf (args : RawArgs) : Option LdapCredentials :=
  match args.domain, args.username, args.password with
  | some d, some u, some p => some ⟨d, u, p⟩
  | _, _, _ => none

/-- `str::parse::<u16>` on one remaining character list: ASCII digits
only, checked accumulation that fails as soon as the value exceeds the
`u16` maximum 65535. -/
def parseU16Digits : List Char → Nat → Option Nat
  | [], acc => some acc
  | c :: rest, acc =>
      if c.isDigit then
        let acc' := acc * 10 + (c.toNat - 48)
        if 65535 < acc' then none else parseU16Digits rest acc'
      else none

/-- `str::parse::<u16>`: an optional leading `+` sign followed by at
least one ASCII digit, value at most 65535; anything else fails. -/
def parse_u16 (s : String) : Option Nat :=
  match s.toList with
  | [] => none
  | '+' :: rest => if rest.isEmpty then none else parseU16Digits rest 0
  | cs => parseU16Digits cs 0

/-- `main.rs` lines 67-88: the template-loading loop.  Each file path is
opened then parsed; on the first failure the failing path is reported on
standard error and the process exits with status 1; otherwise each file's
record list is appended to the accumulator in command-line order. -/
def loadFiles (env : Env) : List String → List Delegation → List Event →
    List Event × Except Unit (List Delegation)
  | [], acc, tr => (tr, .ok acc)
  | p :: rest, acc, tr =>
      let tr := tr ++ [.calledOpen p]
      match env.openFile p with
      | .error e => (tr ++ [.stderr (.unableToOpenFile p e)], .error ())
      | .ok () =>
          let tr := tr ++ [.calledParse p]
          match env.parseFile p with
          | .error e => (tr ++ [.stderr (.unableToParseFile p e)], .error ())
          | .ok v => loadFiles env rest (acc ++ v) tr

/-- `main.rs` lines 166-171: the inner matching loop with `break` — scans
the loaded templates in order and stops at the first match. -/
def matchesAny (iso : Delegation → Delegation → Bool) (d : Delegation) :
    List Delegation → Bool
  | [] => false
  | b :: rest => if iso d b then true else matchesAny iso d rest

/-- `main.rs` lines 164-176: the output loop — each discovered delegation
is pretty-printed on standard output unless it matches some template. -/
def printLoop (iso : Delegation → Delegation → Bool)
    (bases : List Delegation) : List Delegation → List Event
  | [] => []
  | d :: rest =>
      if matchesAny iso d bases then printLoop iso bases rest
      else .printedDelegation d :: printLoop iso bases rest

/-- `main.rs` lines 148-157: the naming-context loop.  For each naming
context, a progress line is printed, the explicit delegations are fetched
and appended; a fetch failure reports the naming context on standard
error and exits with status 1. -/
def ncLoop (env : Env) (fsid : Sid) (sch : Schema) (asd : Sd) :
    List String → List Delegation → List Event →
    List Event × Except Unit (List Delegation)
  | [], acc, tr => (tr, .ok acc)
  | nc :: rest, acc, tr =>
      let tr := tr ++ [.stdoutFetchingNamingContext nc,
                        .calledExplicitDelegations nc]
      match env.get_explicit_delegations nc fsid sch asd with
      | .ok h => ncLoop env fsid sch asd rest (acc ++ h) tr
      | .error e =>
          (tr ++ [.stderr (.errorFetchingNamingContext nc e)], .error ())

/-- `main.rs` lines 159-176: close the connection (exit 1 on failure),
then run the output loop and return normally. -/
def runAfterTraversal (env : Env) (server : Option String) (port : Nat)
    (bases delegs : List Delegation) (tr : List Event) :
    List Event × Outcome :=
  let tr := tr ++ [.calledDestroy]
  match env.destroy with
  | .error e =>
      (tr ++ [.stderr (.errorClosingConnection (server.getD "default") port e)],
       .exited 1)
  | .ok () => (tr ++ printLoop env.is_instance_of bases delegs, .exited 0)

/-- `main.rs` lines 144-157: seed the combined list with the
schema-default delegations, then traverse the naming contexts. -/
def runTraversal (env : Env) (server : Option String) (port : Nat)
    (bases : List Delegation) (fsid : Sid) (sch : Schema) (asd : Sd)
    (tr : List Event) : List Event × Outcome :=
  let tr := tr ++ [.calledSchemaDelegations]
  match ncLoop env fsid sch asd env.naming_contexts
      (env.get_schema_delegations sch fsid) tr with
  | (tr, .error ()) => (tr, .exited 1)
  | (tr, .ok delegs) => runAfterTraversal env server port bases delegs tr

/-- `main.rs` lines 120-142: fetch the forest SID, the AdminSDHolder
security descriptor and the schema, each once, exiting with status 1 on
any failure. -/
def runFetches (env : Env) (server : Option String) (port : Nat)
    (bases : List Delegation) (tr : List Event) : List Event × Outcome :=
  let tr := tr ++ [.calledForestSid]
  match env.get_forest_sid with
  | .error e => (tr ++ [.stderr (.unableToFetchForestSid e)], .exited 1)
  | .ok fsid =>
      let tr := tr ++ [.calledAdminSdHolder]
      match env.get_adminsdholder_sd with
      | .error e => (tr ++ [.stderr (.unableToFetchAdminSdHolder e)], .exited 1)
      | .ok asd =>
          let tr := tr ++ [.calledSchemaQuery]
          match env.schema_query with
          | .error e => (tr ++ [.stderr (.unableToFetchSchema e)], .exited 1)
          | .ok sch => runTraversal env server port bases fsid sch asd tr

/-- `main.rs` lines 112-118: attempt the LDAP connection, exiting with
status 1 on failure. -/
def runConnect (env : Env) (server : Option String) (port : Nat)
    (creds : Option LdapCredentials) (bases : List Delegation)
    (tr : List Event) : List Event × Outcome :=
  let tr := tr ++ [.calledConnect server port creds]
  match env.connect server port creds with
  | .error e =>
      (tr ++ [.stderr (.unableToConnect (server.getD "default") port e)],
       .exited 1)
  | .ok () => runFetches env server port bases tr

/-- The whole of `main` (`main.rs` lines 14-177): argument parsing, the
template-loading loop (note the `.unwrap()` on `values_of("deleg_file")`
at line 69, which panics when no FILE argument was supplied), port
parsing with the `n > 0` guard, credential assembly, connection, the
single fetches, the traversal, the connection close, and the output loop. -/
def runMain (raw : RawArgs) (env : Env) : List Event × Outcome :=
  match clapGetMatches raw with
  | none => ([], .exited 2)
  | some args =>
      if args.deleg_file.isEmpty then
        ([], .panicked "called Option::unwrap() on a None value")
      else
        match loadFiles env args.deleg_file [] [] with
        | (tr, .error ()) => (tr, .exited 1)
        | (tr, .ok bases) =>
            match args.port with
            | none => (tr, .panicked "no port set")
            | some ps =>
                match parse_u16 ps with
                | some n =>
                    if 0 < n then
                      runConnect env args.server n (credsOf args) bases tr
                    else (tr ++ [.stderr (.unableToParsePort ps)], .exited 1)
                | none => (tr ++ [.stderr (.unableToParsePort ps)], .exited 1)

/-- Extracts the delegation printed by an event, if any. -/
def printedPayload : Event → Option Delegation
  | .printedDelegation d => some d
  | _ => none

/-- The delegations a run reports, in output order: the payloads of the
`printedDelegation` events of its trace. -/
def reported (raw : RawArgs) (env : Env) : List Delegation :=
  (runMain raw env).1.filterMap printedPayload

/-- True when the operator supplied a non-empty proper subset of the
domain/username/password triple (the bad option combination). -/
def partialCreds (raw : RawArgs) : Bool :=
  (raw.domain.isSome || raw.username.isSome || raw.password.isSome)
    && !(raw.domain.isSome && raw.username.isSome && raw.password.isSome)

/-- Concrete command line used by the witnesses: one template file, no
explicit server, port, or credentials. -/
def rawW : RawArgs := ⟨none, none, none, none, none, ["t.json"]⟩

/-- `rawW` after argument parsing: the default port has been filled in. -/
def argsW : RawArgs := ⟨none, some "389", none, none, none, ["t.json"]⟩

/-- Concrete environment used by the witnesses: every call succeeds,
one naming context, one template record and two discovered delegations. -/
def envW : Env where
  openFile := fun _ => .ok ()
  parseFile := fun _ => .ok [⟨1⟩]
  connect := fun _ _ _ => .ok ()
  get_forest_sid := .ok 0
  get_adminsdholder_sd := .ok 0
  schema_query := .ok 0
  get_schema_delegations := fun _ _ => [⟨2⟩]
  naming_contexts := ["DC=corp"]
  get_explicit_delegations := fun _ _ _ _ => .ok [⟨3⟩]
  destroy := .ok ()
  is_instance_of := fun d b => d.val == b.val

/-- `envW` with a failing explicit-delegation fetch. -/
def envW2 : Env := { envW with
  get_explicit_delegations := fun _ _ _ _ => .error "search failed" }

/-- `envW` with a template file that fails to parse. -/
def envW3 : Env := { envW with
  parseFile := fun _ => .error "invalid JSON" }

/-- `envW` with a failing connection close. -/
def envW4 : Env := { envW with destroy := .error "close failed" }

/-- Command line with no FILE argument at all. -/
def rawNoFiles : RawArgs := ⟨none, none, none, none, none, []⟩

/-- Command line supplying the full credential triple. -/
def rawCreds : RawArgs :=
  ⟨none, none, some "D", some "U", some "P", ["t.json"]⟩

/-- `rawCreds` after argument parsing. -/
def argsCreds : RawArgs :=
  ⟨none, some "389", some "D", some "U", some "P", ["t.json"]⟩

/-- Command line supplying only a domain (a partial credential triple). -/
def rawPartial : RawArgs := ⟨none, none, some "D", none, none, ["t.json"]⟩

/-- Command line whose port option is "0". -/
def rawBadPort : RawArgs := ⟨none, some "0", none, none, none, ["t.json"]⟩

/-- `rawBadPort` after argument parsing. -/
def argsBadPort : RawArgs := ⟨none, some "0", none, none, none, ["t.json"]⟩

/-! ### Characterization lemmas for the stages of `runMain` -/

/-- When every file opens and parses, the loading loop appends the
per-file events in command-line order and returns the concatenation of
the files' record lists. -/
lemma loadFiles_ok (env : Env) (g : String → List Delegation) :
    ∀ (ps : List String) (acc : List Delegation) (tr : List Event),
    (∀ p ∈ ps, env.openFile p = .ok () ∧ env.parseFile p = .ok (g p)) →
    loadFiles env ps acc tr =
      (tr ++ ps.flatMap (fun p => [.calledOpen p, .calledParse p]),
       .ok (acc ++ ps.flatMap g)) := by
  intro ps
  induction ps with
  | nil => intro acc tr _; simp [loadFiles]
  | cons p rest ih =>
      intro acc tr h
      obtain ⟨hopen, hparse⟩ := h p (by simp)
      have h' : ∀ q ∈ rest,
          env.openFile q = .ok () ∧ env.parseFile q = .ok (g q) :=
        fun q hq => h q (by simp [hq])
      simp only [loadFiles, hopen, hparse]
      rw [ih _ _ h']
      simp

/-- If the first failing file fails at `File::open`, the loading loop
stops there, reports that path, and signals the exit. -/
lemma loadFiles_open_err (env : Env) (g : String → List Delegation)
    (p e : String) (post : List String) :
    ∀ (pre : List String) (acc : List Delegation) (tr : List Event),
    (∀ q ∈ pre, env.openFile q = .ok () ∧ env.parseFile q = .ok (g q)) →
    env.openFile p = .error e →
    loadFiles env (pre ++ p :: post) acc tr =
      (tr ++ pre.flatMap (fun q => [.calledOpen q, .calledParse q])
          ++ [.calledOpen p, .stderr (.unableToOpenFile p e)],
       .error ()) := by
  intro pre
  induction pre with
  | nil => intro acc tr _ hp; simp [loadFiles, hp]
  | cons q rest ih =>
      intro acc tr h hp
      obtain ⟨hopen, hparse⟩ := h q (by simp)
      have h' : ∀ r ∈ rest,
          env.openFile r = .ok () ∧ env.parseFile r = .ok (g r) :=
        fun r hr => h r (by simp [hr])
      simp only [List.cons_append, loadFiles, hopen, hparse, List.append_eq]
      rw [ih _ _ h' hp]
      simp

/-- If the first failing file opens but fails to parse, the loading loop
stops there, reports that path, and signals the exit. -/
lemma loadFiles_parse_err (env : Env) (g : String → List Delegation)
    (p e : String) (post : List String) :
    ∀ (pre : List String) (acc : List Delegation) (tr : List Event),
    (∀ q ∈ pre, env.openFile q = .ok () ∧ env.parseFile q = .ok (g q)) →
    env.openFile p = .ok () →
    env.parseFile p = .error e →
    loadFiles env (pre ++ p :: post) acc tr =
      (tr ++ pre.flatMap (fun q => [.calledOpen q, .calledParse q])
          ++ [.calledOpen p, .calledParse p,
              .stderr (.unableToParseFile p e)],
       .error ()) := by
  intro pre
  induction pre with
  | nil => intro acc tr _ hp hq; simp [loadFiles, hp, hq]
  | cons q rest ih =>
      intro acc tr h hp hq
      obtain ⟨hopen, hparse⟩ := h q (by simp)
      have h' : ∀ r ∈ rest,
          env.openFile r = .ok () ∧ env.parseFile r = .ok (g r) :=
        fun r hr => h r (by simp [hr])
      simp only [List.cons_append, loadFiles, hopen, hparse, List.append_eq]
      rw [ih _ _ h' hp hq]
      simp

/-- When every naming context's fetch succeeds, the traversal loop
appends the per-context events in enumeration order and appends each
context's delegations to the accumulator in that same order. -/
lemma ncLoop_ok (env : Env) (fsid : Sid) (sch : Schema) (asd : Sd)
    (h : String → List Delegation) :
    ∀ (ncs : List String) (acc : List Delegation) (tr : List Event),
    (∀ nc ∈ ncs,
        env.get_explicit_delegations nc fsid sch asd = .ok (h nc)) →
    ncLoop env fsid sch asd ncs acc tr =
      (tr ++ ncs.flatMap (fun nc => [.stdoutFetchingNamingContext nc,
                                      .calledExplicitDelegations nc]),
       .ok (acc ++ ncs.flatMap h)) := by
  intro ncs
  induction ncs with
  | nil => intro acc tr _; simp [ncLoop]
  | cons nc rest ih =>
      intro acc tr hh
      have hnc := hh nc (by simp)
      have h' : ∀ m ∈ rest,
          env.get_explicit_delegations m fsid sch asd = .ok (h m) :=
        fun m hm => hh m (by simp [hm])
      simp only [ncLoop, hnc]
      rw [ih _ _ h']
      simp

/-- If the fetch for naming context `nc` fails after every earlier one
succeeded, the traversal loop stops at `nc`, reports it, and signals
the exit. -/
lemma ncLoop_err (env : Env) (fsid : Sid) (sch : Schema) (asd : Sd)
    (h : String → List Delegation) (nc e : String) (post : List String) :
    ∀ (pre : List String) (acc : List Delegation) (tr : List Event),
    (∀ m ∈ pre,
        env.get_explicit_delegations m fsid sch asd = .ok (h m)) →
    env.get_explicit_delegations nc fsid sch asd = .error e →
    ncLoop env fsid sch asd (pre ++ nc :: post) acc tr =
      (tr ++ pre.flatMap (fun m => [.stdoutFetchingNamingContext m,
                                     .calledExplicitDelegations m])
          ++ [.stdoutFetchingNamingContext nc,
              .calledExplicitDelegations nc,
              .stderr (.errorFetchingNamingContext nc e)],
       .error ()) := by
  intro pre
  induction pre with
  | nil => intro acc tr _ hnc; simp [ncLoop, hnc]
  | cons m rest ih =>
      intro acc tr hh hnc
      have hm := hh m (by simp)
      have h' : ∀ r ∈ rest,
          env.get_explicit_delegations r fsid sch asd = .ok (h r) :=
        fun r hr => hh r (by simp [hr])
      simp only [List.cons_append, ncLoop, hm, List.append_eq]
      rw [ih _ _ h' hnc]
      simp

/-- The inner matching loop returns true exactly when some template in
the list matches. -/
lemma matchesAny_eq_true_iff (iso : Delegation → Delegation → Bool)
    (d : Delegation) :
    ∀ bs : List Delegation,
    matchesAny iso d bs = true ↔ ∃ b ∈ bs, iso d b = true := by
  intro bs
  induction bs with
  | nil => simp [matchesAny]
  | cons b rest ih =>
      by_cases hb : iso d b
      · simp [matchesAny, hb]
      · simp [matchesAny, hb, ih]

/-- Every event emitted by the output loop is a printed delegation. -/
lemma printLoop_events (iso : Delegation → Delegation → Bool)
    (bases : List Delegation) :
    ∀ (ds : List Delegation) (ev : Event), ev ∈ printLoop iso bases ds →
    ∃ d, ev = .printedDelegation d := by
  intro ds
  induction ds with
  | nil => simp [printLoop]
  | cons d rest ih =>
      intro ev hev
      by_cases hd : matchesAny iso d bases
      · exact ih ev (by simpa [printLoop, hd] using hev)
      · rw [printLoop, if_neg hd] at hev
        rcases List.mem_cons.mp hev with h | h
        · exact ⟨d, h⟩
        · exact ih ev h

/-- A delegation is printed by the output loop iff it occurs in the
discovered list and matches no template. -/
lemma printLoop_mem_iff (iso : Delegation → Delegation → Bool)
    (bases : List Delegation) (d : Delegation) :
    ∀ ds : List Delegation,
    Event.printedDelegation d ∈ printLoop iso bases ds ↔
      d ∈ ds ∧ matchesAny iso d bases = false := by
  intro ds
  induction ds with
  | nil => simp [printLoop]
  | cons d' rest ih =>
      by_cases hd : matchesAny iso d' bases
      · rw [printLoop, if_pos hd, ih]
        constructor
        · exact fun ⟨hm, hf⟩ => ⟨List.mem_cons_of_mem _ hm, hf⟩
        · rintro ⟨hm, hf⟩
          rcases List.mem_cons.mp hm with rfl | hm
          · rw [hd] at hf; cases hf
          · exact ⟨hm, hf⟩
      · rw [printLoop, if_neg hd]
        simp only [List.mem_cons, Event.printedDelegation.injEq, ih]
        constructor
        · rintro (rfl | ⟨hm, hf⟩)
          · exact ⟨Or.inl rfl, Bool.eq_false_iff.mpr hd⟩
          · exact ⟨Or.inr hm, hf⟩
        · rintro ⟨rfl | hm, hf⟩
          · exact Or.inl rfl
          · exact Or.inr ⟨hm, hf⟩

/-- Master characterization of a fully successful run: the trace is the
per-file loading events in command-line order, the connection, the three
single fetches, the schema-default derivation, the per-naming-context
events in enumeration order, the connection close, and finally the
output loop over the combined delegation list. -/
lemma runMain_ok (raw args : RawArgs) (env : Env)
    (g h : String → List Delegation) (ps : String) (n : Nat)
    (fsid : Sid) (asd : Sd) (sch : Schema)
    (hclap : clapGetMatches raw = some args)
    (hne : args.deleg_file ≠ [])
    (hfiles : ∀ p ∈ args.deleg_file,
        env.openFile p = .ok () ∧ env.parseFile p = .ok (g p))
    (hport : args.port = some ps)
    (hn : parse_u16 ps = some n) (hn0 : 0 < n)
    (hconn : env.connect args.server n (credsOf args) = .ok ())
    (hsid : env.get_forest_sid = .ok fsid)
    (hasd : env.get_adminsdholder_sd = .ok asd)
    (hsch : env.schema_query = .ok sch)
    (hnc : ∀ nc ∈ env.naming_contexts,
        env.get_explicit_delegations nc fsid sch asd = .ok (h nc))
    (hdest : env.destroy = .ok ()) :
    runMain raw env =
      (args.deleg_file.flatMap (fun p => [.calledOpen p, .calledParse p])
        ++ [.calledConnect args.server n (credsOf args),
            .calledForestSid, .calledAdminSdHolder, .calledSchemaQuery,
            .calledSchemaDelegations]
        ++ env.naming_contexts.flatMap
            (fun nc => [.stdoutFetchingNamingContext nc,
                        .calledExplicitDelegations nc])
        ++ [.calledDestroy]
        ++ printLoop env.is_instance_of (args.deleg_file.flatMap g)
            (env.get_schema_delegations sch fsid
              ++ env.naming_contexts.flatMap h),
       .exited 0) := by
  have hne' : args.deleg_file.isEmpty = false := by
    cases hd : args.deleg_file
    · exact absurd hd hne
    · simp
  simp only [runMain, hclap, hne', Bool.false_eq_true, if_false]
  rw [loadFiles_ok env g args.deleg_file [] [] hfiles]
  simp only [hport, hn, if_pos hn0]
  simp only [runConnect, hconn]
  simp only [runFetches, hsid, hasd, hsch]
  simp only [runTraversal]
  rw [ncLoop_ok env fsid sch asd h env.naming_contexts _ _ hnc]
  simp only [runAfterTraversal, hdest]
  simp

/-- File-loading events print nothing. -/
lemma printedPayload_fileEvents (ps : List String) :
    (ps.flatMap
      (fun p => [Event.calledOpen p, Event.calledParse p])).filterMap
        printedPayload = [] := by
  induction ps with
  | nil => simp
  | cons p rest ih => simp [printedPayload, ih]

/-- Naming-context traversal events print nothing. -/
lemma printedPayload_ncEvents (ncs : List String) :
    (ncs.flatMap
      (fun nc => [Event.stdoutFetchingNamingContext nc,
                  Event.calledExplicitDelegations nc])).filterMap
        printedPayload = [] := by
  induction ncs with
  | nil => simp
  | cons nc rest ih => simp [printedPayload, ih]

/-- The output loop prints exactly the discovered delegations that match
no loaded template, in discovery order. -/
lemma printedPayload_printLoop (iso : Delegation → Delegation → Bool)
    (bases : List Delegation) :
    ∀ ds : List Delegation,
    (printLoop iso bases ds).filterMap printedPayload =
      ds.filter (fun d => !matchesAny iso d bases) := by
  intro ds
  induction ds with
  | nil => simp [printLoop]
  | cons d rest ih =>
      by_cases hd : matchesAny iso d bases
      · simp [printLoop, hd, ih]
      · simp [printLoop, hd, ih, printedPayload]

/-- On a fully successful run, the reported list is the combined
delegation list (schema defaults first, then explicit delegations in
naming-context enumeration order) filtered by template non-matching. -/
lemma reported_ok (raw args : RawArgs) (env : Env)
    (g h : String → List Delegation) (ps : String) (n : Nat)
    (fsid : Sid) (asd : Sd) (sch : Schema)
    (hclap : clapGetMatches raw = some args)
    (hne : args.deleg_file ≠ [])
    (hfiles : ∀ p ∈ args.deleg_file,
        env.openFile p = .ok () ∧ env.parseFile p = .ok (g p))
    (hport : args.port = some ps)
    (hn : parse_u16 ps = some n) (hn0 : 0 < n)
    (hconn : env.connect args.server n (credsOf args) = .ok ())
    (hsid : env.get_forest_sid = .ok fsid)
    (hasd : env.get_adminsdholder_sd = .ok asd)
    (hsch : env.schema_query = .ok sch)
    (hnc : ∀ nc ∈ env.naming_contexts,
        env.get_explicit_delegations nc fsid sch asd = .ok (h nc))
    (hdest : env.destroy = .ok ()) :
    reported raw env =
      (env.get_schema_delegations sch fsid
        ++ env.naming_contexts.flatMap h).filter
          (fun d => !matchesAny env.is_instance_of d
            (args.deleg_file.flatMap g)) := by
  rw [reported, runMain_ok raw args env g h ps n fsid asd sch hclap hne
      hfiles hport hn hn0 hconn hsid hasd hsch hnc hdest]
  simp [List.filterMap_append, printedPayload_fileEvents,
    printedPayload_ncEvents, printedPayload_printLoop, printedPayload]

/-- The traversal loop only ever appends to the trace it is given. -/
lemma ncLoop_trace_extends (env : Env) (fsid : Sid) (sch : Schema)
    (asd : Sd) :
    ∀ (ncs : List String) (acc : List Delegation) (tr : List Event),
    ∃ rest, (ncLoop env fsid sch asd ncs acc tr).1 = tr ++ rest := by
  intro ncs
  induction ncs with
  | nil => intro acc tr; exact ⟨[], by simp [ncLoop]⟩
  | cons nc rest ih =>
      intro acc tr
      cases hx : env.get_explicit_delegations nc fsid sch asd with
      | error e =>
          exact ⟨[.stdoutFetchingNamingContext nc,
                  .calledExplicitDelegations nc,
                  .stderr (.errorFetchingNamingContext nc e)],
            by rw [ncLoop, hx]; simp⟩
      | ok h =>
          obtain ⟨r, hr⟩ := ih (acc ++ h)
            (tr ++ [.stdoutFetchingNamingContext nc,
                    .calledExplicitDelegations nc])
          exact ⟨[.stdoutFetchingNamingContext nc,
                  .calledExplicitDelegations nc] ++ r,
            by rw [ncLoop, hx]; dsimp only; rw [hr]; simp⟩

/-- Closing and printing only ever append to the trace. -/
lemma runAfterTraversal_trace_extends (env : Env) (server : Option String)
    (port : Nat) (bases delegs : List Delegation) (tr : List Event) :
    ∃ rest, (runAfterTraversal env server port bases delegs tr).1 =
      tr ++ rest := by
  cases hx : env.destroy with
  | error e =>
      exact ⟨[.calledDestroy,
              .stderr (.errorClosingConnection (server.getD "default")
                port e)],
        by rw [runAfterTraversal, hx]; simp⟩
  | ok u =>
      cases u
      exact ⟨[.calledDestroy]
          ++ printLoop env.is_instance_of bases delegs,
        by rw [runAfterTraversal, hx]; simp⟩

/-- The traversal stage only ever appends to the trace. -/
lemma runTraversal_trace_extends (env : Env) (server : Option String)
    (port : Nat) (bases : List Delegation) (fsid : Sid) (sch : Schema)
    (asd : Sd) (tr : List Event) :
    ∃ rest, (runTraversal env server port bases fsid sch asd tr).1 =
      tr ++ rest := by
  obtain ⟨r, hr⟩ := ncLoop_trace_extends env fsid sch asd
    env.naming_contexts (env.get_schema_delegations sch fsid)
    (tr ++ [.calledSchemaDelegations])
  rcases hx : ncLoop env fsid sch asd env.naming_contexts
      (env.get_schema_delegations sch fsid)
      (tr ++ [.calledSchemaDelegations]) with ⟨tr', res⟩
  rw [hx] at hr
  simp only at hr
  subst hr
  cases res with
  | error u =>
      cases u
      exact ⟨[Event.calledSchemaDelegations] ++ r,
        by rw [runTraversal, hx]; simp⟩
  | ok delegs =>
      obtain ⟨r2, hr2⟩ := runAfterTraversal_trace_extends env server port
        bases delegs (tr ++ [Event.calledSchemaDelegations] ++ r)
      exact ⟨[Event.calledSchemaDelegations] ++ r ++ r2,
        by rw [runTraversal, hx]; dsimp only; rw [hr2]; simp⟩

/-- The fetch stage only ever appends to the trace. -/
lemma runFetches_trace_extends (env : Env) (server : Option String)
    (port : Nat) (bases : List Delegation) (tr : List Event) :
    ∃ rest, (runFetches env server port bases tr).1 = tr ++ rest := by
  cases h1 : env.get_forest_sid with
  | error e =>
      exact ⟨[.calledForestSid, .stderr (.unableToFetchForestSid e)],
        by rw [runFetches, h1]; simp⟩
  | ok fsid =>
      cases h2 : env.get_adminsdholder_sd with
      | error e =>
          exact ⟨[.calledForestSid, .calledAdminSdHolder,
                  .stderr (.unableToFetchAdminSdHolder e)],
            by rw [runFetches, h1]; dsimp only; rw [h2]; simp⟩
      | ok asd =>
          cases h3 : env.schema_query with
          | error e =>
              exact ⟨[.calledForestSid, .calledAdminSdHolder,
                      .calledSchemaQuery,
                      .stderr (.unableToFetchSchema e)],
                by rw [runFetches, h1]; dsimp only; rw [h2]; dsimp only;
                   rw [h3]; simp⟩
          | ok sch =>
              obtain ⟨r, hr⟩ := runTraversal_trace_extends env server port
                bases fsid sch asd (tr ++ [.calledForestSid]
                  ++ [.calledAdminSdHolder] ++ [.calledSchemaQuery])
              exact ⟨[.calledForestSid, .calledAdminSdHolder,
                      .calledSchemaQuery] ++ r,
                by rw [runFetches, h1]; dsimp only; rw [h2]; dsimp only;
                   rw [h3]; dsimp only; rw [hr]; simp⟩

/-- Whatever the connection attempt returns, the trace records the
connection call, with exactly the credential value `main` assembled. -/
lemma runConnect_connect_event (env : Env) (server : Option String)
    (port : Nat) (creds : Option LdapCredentials)
    (bases : List Delegation) (tr : List Event) :
    Event.calledConnect server port creds ∈
      (runConnect env server port creds bases tr).1 := by
  cases hx : env.connect server port creds with
  | error e =>
      rw [runConnect, hx]
      simp
  | ok u =>
      cases u
      obtain ⟨r, hr⟩ := runFetches_trace_extends env server port bases
        (tr ++ [.calledConnect server port creds])
      rw [runConnect, hx]
      dsimp only
      rw [hr]
      simp

/-- A template file that cannot be opened aborts the run during loading:
the failing path is reported and the process exits with status 1,
without any further event. -/
lemma runMain_open_err (raw args : RawArgs) (env : Env)
    (g : String → List Delegation) (pre post : List String) (p e : String)
    (hclap : clapGetMatches raw = some args)
    (hsplit : args.deleg_file = pre ++ p :: post)
    (hpre : ∀ q ∈ pre, env.openFile q = .ok () ∧ env.parseFile q = .ok (g q))
    (hp : env.openFile p = .error e) :
    runMain raw env =
      (pre.flatMap (fun q => [.calledOpen q, .calledParse q])
        ++ [.calledOpen p, .stderr (.unableToOpenFile p e)],
       .exited 1) := by
  have hne' : args.deleg_file.isEmpty = false := by
    rw [hsplit]; cases pre <;> simp
  simp only [runMain, hclap, hne', Bool.false_eq_true, if_false]
  rw [hsplit, loadFiles_open_err env g p e post pre [] [] hpre hp]
  simp

/-- A template file that opens but cannot be parsed aborts the run
during loading: the failing path is reported and the process exits with
status 1, without any further event. -/
lemma runMain_parse_err (raw args : RawArgs) (env : Env)
    (g : String → List Delegation) (pre post : List String) (p e : String)
    (hclap : clapGetMatches raw = some args)
    (hsplit : args.deleg_file = pre ++ p :: post)
    (hpre : ∀ q ∈ pre, env.openFile q = .ok () ∧ env.parseFile q = .ok (g q))
    (hpo : env.openFile p = .ok ())
    (hp : env.parseFile p = .error e) :
    runMain raw env =
      (pre.flatMap (fun q => [.calledOpen q, .calledParse q])
        ++ [.calledOpen p, .calledParse p,
            .stderr (.unableToParseFile p e)],
       .exited 1) := by
  have hne' : args.deleg_file.isEmpty = false := by
    rw [hsplit]; cases pre <;> simp
  simp only [runMain, hclap, hne', Bool.false_eq_true, if_false]
  rw [hsplit, loadFiles_parse_err env g p e post pre [] [] hpre hpo hp]
  simp

/-- A port value that does not parse as a `u16`, or parses as zero,
aborts the run right after template loading: the bad value is reported
and the process exits with status 1, without any further event. -/
lemma runMain_port_err (raw args : RawArgs) (env : Env)
    (g : String → List Delegation) (ps : String)
    (hclap : clapGetMatches raw = some args)
    (hne : args.deleg_file ≠ [])
    (hfiles : ∀ p ∈ args.deleg_file,
        env.openFile p = .ok () ∧ env.parseFile p = .ok (g p))
    (hport : args.port = some ps)
    (hbad : parse_u16 ps = none ∨ parse_u16 ps = some 0) :
    runMain raw env =
      (args.deleg_file.flatMap (fun p => [.calledOpen p, .calledParse p])
        ++ [.stderr (.unableToParsePort ps)],
       .exited 1) := by
  have hne' : args.deleg_file.isEmpty = false := by
    cases hd : args.deleg_file
    · exact absurd hd hne
    · simp
  simp only [runMain, hclap, hne', Bool.false_eq_true, if_false]
  rw [loadFiles_ok env g args.deleg_file [] [] hfiles]
  rcases hbad with hb | hb
  · simp [hport, hb]
  · simp [hport, hb]

/-- A failing explicit-delegation fetch for a naming context aborts the
run at that naming context: the context is reported and the process
exits with status 1, with no later traversal or output event. -/
lemma runMain_nc_err (raw args : RawArgs) (env : Env)
    (g h : String → List Delegation) (ps : String) (n : Nat)
    (fsid : Sid) (asd : Sd) (sch : Schema)
    (pre post : List String) (nc e : String)
    (hclap : clapGetMatches raw = some args)
    (hne : args.deleg_file ≠ [])
    (hfiles : ∀ p ∈ args.deleg_file,
        env.openFile p = .ok () ∧ env.parseFile p = .ok (g p))
    (hport : args.port = some ps)
    (hn : parse_u16 ps = some n) (hn0 : 0 < n)
    (hconn : env.connect args.server n (credsOf args) = .ok ())
    (hsid : env.get_forest_sid = .ok fsid)
    (hasd : env.get_adminsdholder_sd = .ok asd)
    (hsch : env.schema_query = .ok sch)
    (hsplit : env.naming_contexts = pre ++ nc :: post)
    (hpre : ∀ m ∈ pre,
        env.get_explicit_delegations m fsid sch asd = .ok (h m))
    (hnc : env.get_explicit_delegations nc fsid sch asd = .error e) :
    runMain raw env =
      (args.deleg_file.flatMap (fun p => [.calledOpen p, .calledParse p])
        ++ [.calledConnect args.server n (credsOf args),
            .calledForestSid, .calledAdminSdHolder, .calledSchemaQuery,
            .calledSchemaDelegations]
        ++ pre.flatMap (fun m => [.stdoutFetchingNamingContext m,
                                   .calledExplicitDelegations m])
        ++ [.stdoutFetchingNamingContext nc,
            .calledExplicitDelegations nc,
            .stderr (.errorFetchingNamingContext nc e)],
       .exited 1) := by
  have hne' : args.deleg_file.isEmpty = false := by
    cases hd : args.deleg_file
    · exact absurd hd hne
    · simp
  simp only [runMain, hclap, hne', Bool.false_eq_true, if_false]
  rw [loadFiles_ok env g args.deleg_file [] [] hfiles]
  simp only [hport, hn, if_pos hn0]
  simp only [runConnect, hconn]
  simp only [runFetches, hsid, hasd, hsch]
  simp only [runTraversal, hsplit]
  rw [ncLoop_err env fsid sch asd h nc e post pre _ _ hpre hnc]
  simp

/-- A failing connection close after a complete traversal reports the
close error and exits with status 1, printing no delegation. -/
lemma runMain_destroy_err (raw args : RawArgs) (env : Env)
    (g h : String → List Delegation) (ps : String) (n : Nat)
    (fsid : Sid) (asd : Sd) (sch : Schema) (e : String)
    (hclap : clapGetMatches raw = some args)
    (hne : args.deleg_file ≠ [])
    (hfiles : ∀ p ∈ args.deleg_file,
        env.openFile p = .ok () ∧ env.parseFile p = .ok (g p))
    (hport : args.port = some ps)
    (hn : parse_u16 ps = some n) (hn0 : 0 < n)
    (hconn : env.connect args.server n (credsOf args) = .ok ())
    (hsid : env.get_forest_sid = .ok fsid)
    (hasd : env.get_adminsdholder_sd = .ok asd)
    (hsch : env.schema_query = .ok sch)
    (hnc : ∀ nc ∈ env.naming_contexts,
        env.get_explicit_delegations nc fsid sch asd = .ok (h nc))
    (hdest : env.destroy = .error e) :
    runMain raw env =
      (args.deleg_file.flatMap (fun p => [.calledOpen p, .calledParse p])
        ++ [.calledConnect args.server n (credsOf args),
            .calledForestSid, .calledAdminSdHolder, .calledSchemaQuery,
            .calledSchemaDelegations]
        ++ env.naming_contexts.flatMap
            (fun nc => [.stdoutFetchingNamingContext nc,
                        .calledExplicitDelegations nc])
        ++ [.calledDestroy,
            .stderr (.errorClosingConnection (args.server.getD "default")
              n e)],
       .exited 1) := by
  have hne' : args.deleg_file.isEmpty = false := by
    cases hd : args.deleg_file
    · exact absurd hd hne
    · simp
  simp only [runMain, hclap, hne', Bool.false_eq_true, if_false]
  rw [loadFiles_ok env g args.deleg_file [] [] hfiles]
  simp only [hport, hn, if_pos hn0]
  simp only [runConnect, hconn]
  simp only [runFetches, hsid, hasd, hsch]
  simp only [runTraversal]
  rw [ncLoop_ok env fsid sch asd h env.naming_contexts _ _ hnc]
  simp only [runAfterTraversal, hdest]
  simp

/-- The inner matching loop returns false exactly when no template in
the list matches. -/
lemma matchesAny_eq_false_iff (iso : Delegation → Delegation → Bool)
    (d : Delegation) (bs : List Delegation) :
    matchesAny iso d bs = false ↔ ∀ b ∈ bs, iso d b = false := by
  rw [← Bool.not_eq_true, matchesAny_eq_true_iff]
  simp

/-- Argument parsing never alters the template file list. -/
lemma clapGetMatches_deleg_file (raw args : RawArgs)
    (hclap : clapGetMatches raw = some args) :
    args.deleg_file = raw.deleg_file := by
  unfold clapGetMatches at hclap
  rcases raw with ⟨s, po, d, u, pw, df⟩
  cases d <;> cases u <;> cases pw <;> simp_all
  · exact hclap.symm ▸ rfl
  · exact hclap.symm ▸ rfl

/-- Argument parsing fails on a partial credential triple. -/
lemma clapGetMatches_partial (raw : RawArgs)
    (hpc : partialCreds raw = true) :
    clapGetMatches raw = none := by
  unfold partialCreds at hpc
  unfold clapGetMatches
  rcases raw with ⟨s, po, d, u, pw, df⟩
  cases d <;> cases u <;> cases pw <;> simp_all

/-- Once the port is accepted, the trace records the connection call
with the credential value assembled from the arguments. -/
lemma runMain_connect_event (raw args : RawArgs) (env : Env)
    (g : String → List Delegation) (ps : String) (n : Nat)
    (hclap : clapGetMatches raw = some args)
    (hne : args.deleg_file ≠ [])
    (hfiles : ∀ p ∈ args.deleg_file,
        env.openFile p = .ok () ∧ env.parseFile p = .ok (g p))
    (hport : args.port = some ps)
    (hn : parse_u16 ps = some n) (hn0 : 0 < n) :
    Event.calledConnect args.server n (credsOf args) ∈
      (runMain raw env).1 := by
  have hne' : args.deleg_file.isEmpty = false := by
    cases hd : args.deleg_file
    · exact absurd hd hne
    · simp
  simp only [runMain, hclap, hne', Bool.false_eq_true, if_false]
  rw [loadFiles_ok env g args.deleg_file [] [] hfiles]
  simp only [hport, hn, if_pos hn0]
  exact runConnect_connect_event env args.server n (credsOf args) _ _

/-! ### Claims -/

/-- C1: on a successful run, a discovered Delegation (schema-default or
explicit) is printed on standard output iff it matches no loaded
template record, where matching is decided by `is_instance_of` against
each record of the loaded template set. -/
theorem C1_reported_iff_unmatched (raw args : RawArgs) (env : Env)
    (g h : String → List Delegation) (ps : String) (n : Nat)
    (fsid : Sid) (asd : Sd) (sch : Schema) (d : Delegation)
    (hclap : clapGetMatches raw = some args)
    (hne : args.deleg_file ≠ [])
    (hfiles : ∀ p ∈ args.deleg_file,
        env.openFile p = .ok () ∧ env.parseFile p = .ok (g p))
    (hport : args.port = some ps)
    (hn : parse_u16 ps = some n) (hn0 : 0 < n)
    (hconn : env.connect args.server n (credsOf args) = .ok ())
    (hsid : env.get_forest_sid = .ok fsid)
    (hasd : env.get_adminsdholder_sd = .ok asd)
    (hsch : env.schema_query = .ok sch)
    (hnc : ∀ nc ∈ env.naming_contexts,
        env.get_explicit_delegations nc fsid sch asd = .ok (h nc))
    (hdest : env.destroy = .ok ()) :
    d ∈ reported raw env ↔
      (d ∈ env.get_schema_delegations sch fsid
            ++ env.naming_contexts.flatMap h
        ∧ ∀ t ∈ args.deleg_file.flatMap g,
            env.is_instance_of d t = false) := by
  rw [reported_ok raw args env g h ps n fsid asd sch hclap hne hfiles
      hport hn hn0 hconn hsid hasd hsch hnc hdest]
  rw [List.mem_filter]
  simp [matchesAny_eq_false_iff]

/-- Witness for C1 at a concrete run: the explicit delegation `⟨3⟩` is
reported because it matches neither loaded template. -/
theorem C1_reported_iff_unmatched_witness :
    Delegation.mk 3 ∈ reported rawW envW ↔
      (Delegation.mk 3 ∈ envW.get_schema_delegations 0 0
            ++ envW.naming_contexts.flatMap (fun _ => [Delegation.mk 3])
        ∧ ∀ t ∈ argsW.deleg_file.flatMap (fun _ => [Delegation.mk 1]),
            envW.is_instance_of (Delegation.mk 3) t = false) :=
  C1_reported_iff_unmatched rawW argsW envW (fun _ => [⟨1⟩])
    (fun _ => [⟨3⟩]) "389" 389 0 0 0 ⟨3⟩ rfl (by simp [argsW])
    (fun p _ => ⟨rfl, rfl⟩) rfl (by decide) (by decide) rfl rfl rfl rfl
    (fun nc _ => rfl) rfl

/-- C2: if fetching the explicit delegations of a naming context fails
(after the earlier contexts succeeded), the run aborts: the failing
naming context is reported on standard error, the process exits with a
non-zero status, no Delegation is printed, and no naming context beyond
the failing one is traversed. -/
theorem C2_nc_failure_aborts (raw args : RawArgs) (env : Env)
    (g h : String → List Delegation) (ps : String) (n : Nat)
    (fsid : Sid) (asd : Sd) (sch : Schema)
    (pre post : List String) (nc e : String)
    (hclap : clapGetMatches raw = some args)
    (hne : args.deleg_file ≠ [])
    (hfiles : ∀ p ∈ args.deleg_file,
        env.openFile p = .ok () ∧ env.parseFile p = .ok (g p))
    (hport : args.port = some ps)
    (hn : parse_u16 ps = some n) (hn0 : 0 < n)
    (hconn : env.connect args.server n (credsOf args) = .ok ())
    (hsid : env.get_forest_sid = .ok fsid)
    (hasd : env.get_adminsdholder_sd = .ok asd)
    (hsch : env.schema_query = .ok sch)
    (hsplit : env.naming_contexts = pre ++ nc :: post)
    (hpre : ∀ m ∈ pre,
        env.get_explicit_delegations m fsid sch asd = .ok (h m))
    (hnc : env.get_explicit_delegations nc fsid sch asd = .error e) :
    ∃ T, runMain raw env = (T, .exited 1)
      ∧ Event.stderr (.errorFetchingNamingContext nc e) ∈ T
      ∧ (∀ m, Event.calledExplicitDelegations m ∈ T → m ∈ pre ∨ m = nc)
      ∧ ∀ d, Event.printedDelegation d ∉ T := by
  refine ⟨_, runMain_nc_err raw args env g h ps n fsid asd sch pre post
    nc e hclap hne hfiles hport hn hn0 hconn hsid hasd hsch hsplit hpre
    hnc, ?_, ?_, ?_⟩
  · simp
  · intro m hm
    simp only [List.mem_append, List.mem_flatMap, List.mem_cons,
      List.not_mem_nil, or_false] at hm
    rcases hm with ((hm | hm) | hm) | hm
    · obtain ⟨p, _, hp⟩ := hm
      simp at hp
    · simp at hm
    · obtain ⟨x, hx, hp⟩ := hm
      left
      have hmx : m = x := by
        rcases hp with hp | hp
        · exact absurd hp (by simp)
        · exact (Event.calledExplicitDelegations.injEq m x).mp hp
      exact hmx ▸ hx
    · right
      rcases hm with hm | hm | hm
      · exact absurd hm (by simp)
      · exact (Event.calledExplicitDelegations.injEq m nc).mp hm
      · exact absurd hm (by simp)
  · intro d
    simp [List.mem_flatMap]

/-- Witness for C2: with the only naming context failing, the run exits
with status 1, reports the context, traverses nothing further and
prints nothing. -/
theorem C2_nc_failure_aborts_witness :
    ∃ T, runMain rawW envW2 = (T, .exited 1)
      ∧ Event.stderr (.errorFetchingNamingContext "DC=corp"
          "search failed") ∈ T
      ∧ (∀ m, Event.calledExplicitDelegations m ∈ T →
          m ∈ ([] : List String) ∨ m = "DC=corp")
      ∧ ∀ d, Event.printedDelegation d ∉ T :=
  C2_nc_failure_aborts rawW argsW envW2 (fun _ => [⟨1⟩])
    (fun _ => [⟨3⟩]) "389" 389 0 0 0 [] [] "DC=corp" "search failed"
    rfl (by simp [argsW]) (fun p _ => ⟨rfl, rfl⟩) rfl (by decide)
    (by decide) rfl rfl rfl rfl rfl (fun m hm => absurd hm (by simp)) rfl

/-- C3: if a template file cannot be opened, or cannot be parsed, the
run reports that file's path on standard error and exits with a
non-zero status, and no directory connection is ever attempted. -/
theorem C3_template_failure_before_connect (raw args : RawArgs)
    (env : Env) (g : String → List Delegation)
    (pre post : List String) (p e : String)
    (hclap : clapGetMatches raw = some args)
    (hsplit : args.deleg_file = pre ++ p :: post)
    (hpre : ∀ q ∈ pre,
        env.openFile q = .ok () ∧ env.parseFile q = .ok (g q))
    (herr : env.openFile p = .error e ∨
        (env.openFile p = .ok () ∧ env.parseFile p = .error e)) :
    ∃ T, runMain raw env = (T, .exited 1)
      ∧ (Event.stderr (.unableToOpenFile p e) ∈ T ∨
          Event.stderr (.unableToParseFile p e) ∈ T)
      ∧ (∀ s pt c, Event.calledConnect s pt c ∉ T)
      ∧ ∀ d, Event.printedDelegation d ∉ T := by
  rcases herr with hp | ⟨hpo, hp⟩
  · refine ⟨_, runMain_open_err raw args env g pre post p e hclap hsplit
      hpre hp, Or.inl (by simp), ?_, ?_⟩
    · intro s pt c
      simp [List.mem_flatMap]
    · intro d
      simp [List.mem_flatMap]
  · refine ⟨_, runMain_parse_err raw args env g pre post p e hclap hsplit
      hpre hpo hp, Or.inr (by simp), ?_, ?_⟩
    · intro s pt c
      simp [List.mem_flatMap]
    · intro d
      simp [List.mem_flatMap]

/-- Witness for C3: with an unparsable template file, the run exits
with status 1 reporting the path, with no connection event. -/
theorem C3_template_failure_before_connect_witness :
    ∃ T, runMain rawW envW3 = (T, .exited 1)
      ∧ (Event.stderr (.unableToOpenFile "t.json" "invalid JSON") ∈ T ∨
          Event.stderr (.unableToParseFile "t.json" "invalid JSON") ∈ T)
      ∧ (∀ s pt c, Event.calledConnect s pt c ∉ T)
      ∧ ∀ d, Event.printedDelegation d ∉ T :=
  C3_template_failure_before_connect rawW argsW envW3 (fun _ => [])
    [] [] "t.json" "invalid JSON" rfl rfl
    (fun q hq => absurd hq (by simp)) (Or.inr ⟨rfl, rfl⟩)

/-- C4: in a successful run the events occur in exactly this order:
template loading, one connection, one forest-SID fetch, one
AdminSDHolder fetch, one schema fetch, the schema-default derivation
(before any naming context), the per-naming-context fetches in
enumeration order, the connection close, and only then the output loop
over the combined list (schema defaults first, then the explicit
delegations appended per naming context in enumeration order). -/
theorem C4_pipeline_order (raw args : RawArgs) (env : Env)
    (g h : String → List Delegation) (ps : String) (n : Nat)
    (fsid : Sid) (asd : Sd) (sch : Schema)
    (hclap : clapGetMatches raw = some args)
    (hne : args.deleg_file ≠ [])
    (hfiles : ∀ p ∈ args.deleg_file,
        env.openFile p = .ok () ∧ env.parseFile p = .ok (g p))
    (hport : args.port = some ps)
    (hn : parse_u16 ps = some n) (hn0 : 0 < n)
    (hconn : env.connect args.server n (credsOf args) = .ok ())
    (hsid : env.get_forest_sid = .ok fsid)
    (hasd : env.get_adminsdholder_sd = .ok asd)
    (hsch : env.schema_query = .ok sch)
    (hnc : ∀ nc ∈ env.naming_contexts,
        env.get_explicit_delegations nc fsid sch asd = .ok (h nc))
    (hdest : env.destroy = .ok ()) :
    runMain raw env =
      (args.deleg_file.flatMap (fun p => [.calledOpen p, .calledParse p])
        ++ [.calledConnect args.server n (credsOf args),
            .calledForestSid, .calledAdminSdHolder, .calledSchemaQuery,
            .calledSchemaDelegations]
        ++ env.naming_contexts.flatMap
            (fun nc => [.stdoutFetchingNamingContext nc,
                        .calledExplicitDelegations nc])
        ++ [.calledDestroy]
        ++ printLoop env.is_instance_of (args.deleg_file.flatMap g)
            (env.get_schema_delegations sch fsid
              ++ env.naming_contexts.flatMap h),
       .exited 0) :=
  runMain_ok raw args env g h ps n fsid asd sch hclap hne hfiles hport
    hn hn0 hconn hsid hasd hsch hnc hdest

/-- Witness for C4 at the concrete run: the full trace in order. -/
theorem C4_pipeline_order_witness :
    runMain rawW envW =
      (["t.json"].flatMap
          (fun p => [Event.calledOpen p, Event.calledParse p])
        ++ [.calledConnect none 389 none,
            .calledForestSid, .calledAdminSdHolder, .calledSchemaQuery,
            .calledSchemaDelegations]
        ++ ["DC=corp"].flatMap
            (fun nc => [.stdoutFetchingNamingContext nc,
                        .calledExplicitDelegations nc])
        ++ [.calledDestroy]
        ++ printLoop envW.is_instance_of [⟨1⟩] [⟨2⟩, ⟨3⟩],
       .exited 0) :=
  C4_pipeline_order rawW argsW envW (fun _ => [⟨1⟩]) (fun _ => [⟨3⟩])
    "389" 389 0 0 0 rfl (by simp [argsW]) (fun p _ => ⟨rfl, rfl⟩) rfl
    (by decide) (by decide) rfl rfl rfl rfl (fun nc _ => rfl) rfl

/-- C5 (code behavior at the failing input): when zero template files
are supplied, `main` does not run to completion — the
`values_of("deleg_file").unwrap()` at `main.rs` line 69 panics on
`None`, so the process aborts before any file, connection, or directory
activity and reports nothing. -/
theorem C5_zero_templates_panics (raw args : RawArgs) (env : Env)
    (hclap : clapGetMatches raw = some args)
    (hempty : raw.deleg_file = []) :
    runMain raw env =
      ([], .panicked "called Option::unwrap() on a None value") := by
  have hargs : args.deleg_file = [] :=
    (clapGetMatches_deleg_file raw args hclap).trans hempty
  simp [runMain, hclap, hargs]

/-- Witness for C5: the concrete zero-template command line panics even
in an environment where every directory call would succeed. -/
theorem C5_zero_templates_panics_witness :
    runMain rawNoFiles envW =
      ([], .panicked "called Option::unwrap() on a None value") :=
  C5_zero_templates_panics rawNoFiles
    ⟨none, some "389", none, none, none, []⟩ envW rfl rfl

/-- C6: explicit credentials are used iff all three of domain, username
and password are supplied.  When the run reaches the connection, the
credential value passed is `some` triple exactly when all three options
were given, and equals exactly those values; when a proper non-empty
subset is given, argument parsing rejects the combination with a
non-zero exit before anything else, and no connection is attempted. -/
theorem C6_credentials_all_or_none (raw : RawArgs) (env : Env) :
    (∀ (args : RawArgs) (g : String → List Delegation) (ps : String)
        (n : Nat),
      clapGetMatches raw = some args →
      args.deleg_file ≠ [] →
      (∀ p ∈ args.deleg_file,
          env.openFile p = .ok () ∧ env.parseFile p = .ok (g p)) →
      args.port = some ps → parse_u16 ps = some n → 0 < n →
      Event.calledConnect args.server n (credsOf args) ∈
          (runMain raw env).1
        ∧ ∀ t : LdapCredentials, credsOf args = some t ↔
            (args.domain = some t.domain
              ∧ args.username = some t.username
              ∧ args.password = some t.password))
    ∧ (partialCreds raw = true →
        runMain raw env = ([], .exited 2)
          ∧ ∀ s pt c, Event.calledConnect s pt c ∉ (runMain raw env).1) := by
  constructor
  · intro args g ps n hclap hne hfiles hport hn hn0
    refine ⟨runMain_connect_event raw args env g ps n hclap hne hfiles
      hport hn hn0, ?_⟩
    intro t
    rcases t with ⟨td, tu, tp⟩
    cases hd : args.domain <;> cases hu : args.username <;>
      cases hp : args.password <;>
        simp [credsOf, hd, hu, hp]
  · intro hpc
    have hnone := clapGetMatches_partial raw hpc
    have hrun : runMain raw env = ([], .exited 2) := by
      simp [runMain, hnone]
    refine ⟨hrun, ?_⟩
    intro s pt c
    rw [hrun]
    simp

/-- Witness for C6: the full triple is passed to the connection, and a
partial triple is rejected before anything runs. -/
theorem C6_credentials_all_or_none_witness :
    (Event.calledConnect none 389 (some ⟨"D", "U", "P"⟩) ∈
        (runMain rawCreds envW).1)
    ∧ runMain rawPartial envW = ([], .exited 2) :=
  ⟨((C6_credentials_all_or_none rawCreds envW).1 argsCreds
      (fun _ => [⟨1⟩]) "389" 389 rfl (by simp [argsCreds])
      (fun p _ => ⟨rfl, rfl⟩) rfl (by decide) (by decide)).1,
   ((C6_credentials_all_or_none rawPartial envW).2 (by decide)).1⟩

/-- C7: the loaded template set is the concatenation of the files'
record lists in command-line order, assembled before any matching, and
a successful run reports exactly what it would report had the same
records been loaded from one single file. -/
theorem C7_templates_concatenated (raw1 args1 : RawArgs) (env : Env)
    (g h : String → List Delegation) (q ps : String) (n : Nat)
    (fsid : Sid) (asd : Sd) (sch : Schema)
    (hclap : clapGetMatches raw1 = some args1)
    (hne : args1.deleg_file ≠ [])
    (hfiles : ∀ p ∈ args1.deleg_file,
        env.openFile p = .ok () ∧ env.parseFile p = .ok (g p))
    (hqo : env.openFile q = .ok ())
    (hqp : env.parseFile q = .ok (args1.deleg_file.flatMap g))
    (hport : args1.port = some ps)
    (hn : parse_u16 ps = some n) (hn0 : 0 < n)
    (hconn : env.connect args1.server n (credsOf args1) = .ok ())
    (hsid : env.get_forest_sid = .ok fsid)
    (hasd : env.get_adminsdholder_sd = .ok asd)
    (hsch : env.schema_query = .ok sch)
    (hnc : ∀ nc ∈ env.naming_contexts,
        env.get_explicit_delegations nc fsid sch asd = .ok (h nc))
    (hdest : env.destroy = .ok ()) :
    loadFiles env args1.deleg_file [] [] =
      (args1.deleg_file.flatMap
          (fun p => [.calledOpen p, .calledParse p]),
       .ok (args1.deleg_file.flatMap g))
    ∧ reported raw1 env =
        reported { raw1 with deleg_file := [q] } env := by
  refine ⟨by simpa using loadFiles_ok env g args1.deleg_file [] [] hfiles,
    ?_⟩
  have hclap2 : clapGetMatches { raw1 with deleg_file := [q] } =
      some { args1 with deleg_file := [q] } := by
    rcases raw1 with ⟨s, po, d, u, pw, df⟩
    rcases args1 with ⟨s1, po1, d1, u1, pw1, df1⟩
    unfold clapGetMatches at hclap ⊢
    cases d <;> cases u <;> cases pw <;> simp_all
    all_goals
      obtain ⟨h1, h2, h3, h4, h5, h6⟩ := hclap
    all_goals subst_vars
    all_goals simp_all
  rw [reported_ok raw1 args1 env g h ps n fsid asd sch hclap hne hfiles
    hport hn hn0 hconn hsid hasd hsch hnc hdest]
  rw [reported_ok { raw1 with deleg_file := [q] }
    { args1 with deleg_file := [q] } env
    (fun _ => args1.deleg_file.flatMap g) h ps n fsid asd sch hclap2
    (by simp)
    (by intro p hp
        simp only [List.mem_singleton] at hp
        subst hp
        exact ⟨hqo, hqp⟩)
    hport hn hn0 hconn hsid hasd hsch hnc hdest]
  simp

/-- Witness for C7: loading one file, or one file holding the same
records, reports the same delegations. -/
theorem C7_templates_concatenated_witness :
    loadFiles envW ["t.json"] [] [] =
      (["t.json"].flatMap (fun p => [.calledOpen p, .calledParse p]),
       .ok (["t.json"].flatMap (fun _ => [Delegation.mk 1])))
    ∧ reported rawW envW =
        reported { rawW with deleg_file := ["u.json"] } envW :=
  C7_templates_concatenated rawW argsW envW (fun _ => [⟨1⟩])
    (fun _ => [⟨3⟩]) "u.json" "389" 389 0 0 0 rfl (by simp [argsW])
    (fun p _ => ⟨rfl, rfl⟩) rfl rfl rfl (by decide) (by decide) rfl rfl
    rfl rfl (fun nc _ => rfl) rfl

/-- C8: the run is deterministic in its inputs — two runs against
environments whose every call returns the same result, with the same
command line, produce the identical trace, outcome, and reported
Delegation list. -/
theorem C8_deterministic (raw : RawArgs) (e1 e2 : Env)
    (h1 : ∀ p, e1.openFile p = e2.openFile p)
    (h2 : ∀ p, e1.parseFile p = e2.parseFile p)
    (h3 : ∀ s n c, e1.connect s n c = e2.connect s n c)
    (h4 : e1.get_forest_sid = e2.get_forest_sid)
    (h5 : e1.get_adminsdholder_sd = e2.get_adminsdholder_sd)
    (h6 : e1.schema_query = e2.schema_query)
    (h7 : ∀ sch fsid, e1.get_schema_delegations sch fsid =
        e2.get_schema_delegations sch fsid)
    (h8 : e1.naming_contexts = e2.naming_contexts)
    (h9 : ∀ nc fsid sch asd, e1.get_explicit_delegations nc fsid sch asd =
        e2.get_explicit_delegations nc fsid sch asd)
    (h10 : e1.destroy = e2.destroy)
    (h11 : ∀ d b, e1.is_instance_of d b = e2.is_instance_of d b) :
    runMain raw e1 = runMain raw e2 ∧ reported raw e1 = reported raw e2 := by
  have he : e1 = e2 := by
    rcases e1 with ⟨o1, p1, c1, f1, a1, s1, g1, n1, x1, d1, i1⟩
    rcases e2 with ⟨o2, p2, c2, f2, a2, s2, g2, n2, x2, d2, i2⟩
    simp only at h1 h2 h3 h4 h5 h6 h7 h8 h9 h10 h11
    congr 1
    · exact funext h1
    · exact funext h2
    · exact funext fun s => funext fun n => funext fun c => h3 s n c
    · exact funext fun sch => funext fun fsid => h7 sch fsid
    · exact funext fun nc => funext fun fsid => funext fun sch =>
        funext fun asd => h9 nc fsid sch asd
    · exact funext fun d => funext fun b => h11 d b
  rw [he]
  exact ⟨rfl, rfl⟩

/-- Witness for C8 at a concrete snapshot. -/
theorem C8_deterministic_witness :
    runMain rawW envW = runMain rawW envW
      ∧ reported rawW envW = reported rawW envW :=
  C8_deterministic rawW envW envW (fun _ => rfl) (fun _ => rfl)
    (fun _ _ _ => rfl) rfl rfl rfl (fun _ _ => rfl) rfl
    (fun _ _ _ _ => rfl) rfl (fun _ _ => rfl)

/-- C9: delegations are printed only after closing the connection
succeeds — if `destroy` fails after a complete traversal, the process
exits with status 1, reports the close error, traversed every naming
context, yet prints no Delegation at all. -/
theorem C9_failed_close_prints_nothing (raw args : RawArgs) (env : Env)
    (g h : String → List Delegation) (ps : String) (n : Nat)
    (fsid : Sid) (asd : Sd) (sch : Schema) (e : String)
    (hclap : clapGetMatches raw = some args)
    (hne : args.deleg_file ≠ [])
    (hfiles : ∀ p ∈ args.deleg_file,
        env.openFile p = .ok () ∧ env.parseFile p = .ok (g p))
    (hport : args.port = some ps)
    (hn : parse_u16 ps = some n) (hn0 : 0 < n)
    (hconn : env.connect args.server n (credsOf args) = .ok ())
    (hsid : env.get_forest_sid = .ok fsid)
    (hasd : env.get_adminsdholder_sd = .ok asd)
    (hsch : env.schema_query = .ok sch)
    (hnc : ∀ nc ∈ env.naming_contexts,
        env.get_explicit_delegations nc fsid sch asd = .ok (h nc))
    (hdest : env.destroy = .error e) :
    (runMain raw env).2 = .exited 1
      ∧ Event.stderr (.errorClosingConnection (args.server.getD "default")
          n e) ∈ (runMain raw env).1
      ∧ (∀ nc ∈ env.naming_contexts,
          Event.calledExplicitDelegations nc ∈ (runMain raw env).1)
      ∧ ∀ d, Event.printedDelegation d ∉ (runMain raw env).1 := by
  rw [runMain_destroy_err raw args env g h ps n fsid asd sch e hclap hne
    hfiles hport hn hn0 hconn hsid hasd hsch hnc hdest]
  refine ⟨rfl, by simp, ?_, ?_⟩
  · intro nc hm
    simp only [List.mem_append, List.mem_flatMap]
    left; right
    exact ⟨nc, hm, by simp⟩
  · intro d
    simp [List.mem_flatMap]

/-- Witness for C9: with a failing close after a successful traversal,
nothing is printed and the process exits with status 1. -/
theorem C9_failed_close_prints_nothing_witness :
    (runMain rawW envW4).2 = .exited 1
      ∧ Event.stderr (.errorClosingConnection "default" 389
          "close failed") ∈ (runMain rawW envW4).1
      ∧ (∀ nc ∈ envW4.naming_contexts,
          Event.calledExplicitDelegations nc ∈ (runMain rawW envW4).1)
      ∧ ∀ d, Event.printedDelegation d ∉ (runMain rawW envW4).1 :=
  C9_failed_close_prints_nothing rawW argsW envW4 (fun _ => [⟨1⟩])
    (fun _ => [⟨3⟩]) "389" 389 0 0 0 "close failed" rfl
    (by simp [argsW]) (fun p _ => ⟨rfl, rfl⟩) rfl (by decide) (by decide)
    rfl rfl rfl rfl (fun nc _ => rfl) rfl

/-- C10: after template loading, the port string is accepted — and a
connection attempted — iff it parses as an unsigned 16-bit integer
strictly greater than zero; otherwise the bad value is reported on
standard error and the process exits with status 1 before any
connection attempt. -/
theorem C10_port_validation (raw args : RawArgs) (env : Env)
    (g : String → List Delegation) (ps : String)
    (hclap : clapGetMatches raw = some args)
    (hne : args.deleg_file ≠ [])
    (hfiles : ∀ p ∈ args.deleg_file,
        env.openFile p = .ok () ∧ env.parseFile p = .ok (g p))
    (hport : args.port = some ps) :
    ((∃ s pt c, Event.calledConnect s pt c ∈ (runMain raw env).1) ↔
      ∃ n, parse_u16 ps = some n ∧ 0 < n)
    ∧ ((parse_u16 ps = none ∨ parse_u16 ps = some 0) →
        runMain raw env =
          (args.deleg_file.flatMap
              (fun p => [.calledOpen p, .calledParse p])
            ++ [.stderr (.unableToParsePort ps)],
           .exited 1)) := by
  constructor
  · constructor
    · rintro ⟨s, pt, c, hmem⟩
      by_contra hno
      have hbad : parse_u16 ps = none ∨ parse_u16 ps = some 0 := by
        cases hp : parse_u16 ps with
        | none => exact Or.inl rfl
        | some m =>
            rcases Nat.eq_zero_or_pos m with h0 | hpos
            · subst h0; exact Or.inr rfl
            · exact absurd ⟨m, hp, hpos⟩ hno
      rw [runMain_port_err raw args env g ps hclap hne hfiles hport
        hbad] at hmem
      simp [List.mem_flatMap] at hmem
    · rintro ⟨n, hn, hn0⟩
      exact ⟨args.server, n, credsOf args,
        runMain_connect_event raw args env g ps n hclap hne hfiles hport
          hn hn0⟩
  · intro hbad
    exact runMain_port_err raw args env g ps hclap hne hfiles hport hbad

/-- Witness for C10: with port option "0" the run exits with status 1
reporting the value, before any connection. -/
theorem C10_port_validation_witness :
    runMain rawBadPort envW =
      (["t.json"].flatMap (fun p => [Event.calledOpen p,
          Event.calledParse p])
        ++ [.stderr (.unableToParsePort "0")],
       .exited 1) :=
  (C10_port_validation rawBadPort argsBadPort envW (fun _ => [⟨1⟩])
    "0" rfl (by simp [argsBadPort]) (fun p _ => ⟨rfl, rfl⟩) rfl).2
    (Or.inr (by decide))
